import Mathlib

/-!
Verification of the KPI aggregation core of `projects.py`, a Streamlit
dashboard script.  The core transforms a loosely structured spreadsheet
export (a table of optional string cells) into per-category KPI summaries.

The embedding models:
* a pandas cell as `Option String` (`none` models `NaN`),
* the header resolution at module level (find the first row whose first
  cell is `"Type"`, promote it to column names, drop duplicated columns),
* `process_data` (strip column names, check required columns, drop rows
  with missing `Type`, normalize the category, drop `Last Edited` rows,
  coerce numeric columns with a default of 0, group by category, and
  compute clamped completion percentages), and
* the overall-completion metric computed over the filtered summaries.

The aggregation pipeline carries rationals; `pd.to_numeric(errors='coerce')`
is modelled twice: `parsePdNum` covers the full pandas value domain
(decimals, scientific notation, infinity and NaN spellings, as `PdNum`),
and `parseNum` is its finite-decimal fragment, returning `Option ℚ` for
the rational-valued pipeline (`none` for unparsable input, matching the
subsequent `fillna(0)`).  The numeric-cleaning claim is settled against
the full `PdNum` model.
-/

/-- A spreadsheet cell: `none` models a pandas `NaN` (missing value). -/
abbrev Cell := Option String

/-- A dataframe with named columns, as handed to `process_data`. -/
structure Frame where
  cols : List String
  rows : List (List Cell)
deriving Repr, DecidableEq

/-- A raw dataframe as produced by `pd.read_csv(url, header=None)`:
rows of cells, columns addressed by position only. -/
structure RawFrame where
  rows : List (List Cell)
deriving Repr, DecidableEq

/-- One row of the aggregated KPI table produced by `process_data`. -/
structure KPISummary where
  type : String
  design : ℚ
  asBuilt : ℚ
  completion : ℚ
  leftToBuild : ℚ
deriving Repr, DecidableEq

/-! ### String helpers (models of the pandas `.str` operations used) -/

/-- Remove every occurrence of the character `c`
(models `.str.replace(c, '', regex=False)` for a one-character pattern). -/
def removeAll (c : Char) (s : String) : String :=
  ⟨s.data.filter (fun x => x ≠ c)⟩

/-- Strip leading and trailing whitespace (models Python `str.strip`). -/
def strStrip (s : String) : String :=
  ⟨((s.data.dropWhile Char.isWhitespace).reverse.dropWhile
      Char.isWhitespace).reverse⟩

/-- Lower-case every character (models Python `str.lower` on ASCII data). -/
def strLower (s : String) : String :=
  ⟨s.data.map Char.toLower⟩

/-- Helper for `strTitle`: the flag records whether the previous character
was alphabetic (Python title-cases a letter after any non-cased char). -/
def titleAux : Bool → List Char → List Char
  | _, [] => []
  | prevAlpha, c :: cs =>
    (if c.isAlpha then (if prevAlpha then c.toLower else c.toUpper) else c)
      :: titleAux c.isAlpha cs

/-- Title-case a string (models Python `str.title` on ASCII data). -/
def strTitle (s : String) : String :=
  ⟨titleAux false s.data⟩

/-- `listPrefixOf p l` is true when `p` is a prefix of `l`. -/
def listPrefixOf : List Char → List Char → Bool
  | [], _ => true
  | _ :: _, [] => false
  | a :: as, b :: bs => a == b && listPrefixOf as bs

/-- `listContainsSub p l` is true when `p` occurs as a contiguous
subsequence of `l`. -/
def listContainsSub (p : List Char) : List Char → Bool
  | [] => listPrefixOf p []
  | l@(_ :: rest) => listPrefixOf p l || listContainsSub p rest

/-- Case-insensitive substring test
(models `.str.contains(pat, case=False, regex=...)` for a literal pattern). -/
def containsInsensitive (pat s : String) : Bool :=
  listContainsSub (strLower pat).data (strLower s).data

/-! ### Numeric coercion (model of `pd.to_numeric(errors='coerce')`) -/

/-- Value of a digit list, provided it is nonempty and all digits. -/
def natOfDigits (l : List Char) : Option Nat :=
  if l.isEmpty then none
  else if l.all Char.isDigit then
    some (l.foldl (fun n c => n * 10 + (c.toNat - 48)) 0)
  else none

/-- Split a character list at the first `'.'`, if any. -/
def splitAtDot : List Char → List Char × Option (List Char)
  | [] => ([], none)
  | c :: rest =>
    if c = '.' then ([], some rest)
    else
      let p := splitAtDot rest
      (c :: p.1, p.2)

/-- Parse a decimal literal with optional sign and fractional part: the
finite fragment of the pandas parser, used by the rational-valued
pipeline.  The full value domain (scientific notation, infinities, NaN)
is modelled by `parsePdNum` below; cells outside this fragment default
to 0 here, matching `fillna(0)` for everything except literal infinity
and exponent spellings. -/
def parseNum (s : String) : Option ℚ :=
  let l := (strStrip s).data
  let signed : ℚ × List Char :=
    match l with
    | '-' :: rest => (-1, rest)
    | '+' :: rest => (1, rest)
    | _ => (1, l)
  let (intPart, fracPart) := splitAtDot signed.2
  match fracPart with
  | none => (natOfDigits intPart).map (fun n => signed.1 * n)
  | some f =>
    if intPart.isEmpty ∧ f.isEmpty then none
    else if intPart.all Char.isDigit ∧ f.all Char.isDigit then
      let i : Nat := (natOfDigits intPart).getD 0
      let fv : Nat := (natOfDigits f).getD 0
      some (signed.1 * ((i : ℚ) + (fv : ℚ) / (10 : ℚ) ^ f.length))
    else none

/-- A value produced by `pd.to_numeric`: a finite number (modelled as a
rational), one of the two infinities, or `NaN`. -/
inductive PdNum where
  | finite (q : ℚ)
  | posInf
  | negInf
  | nan
deriving Repr, DecidableEq

/-- Split a character list at the first `'e'` or `'E'`, if any. -/
def splitExp : List Char → List Char × Option (List Char)
  | [] => ([], none)
  | c :: rest =>
    if c = 'e' ∨ c = 'E' then ([], some rest)
    else
      let p := splitExp rest
      (c :: p.1, p.2)

/-- Unsigned decimal mantissa: digits with an optional fractional part,
at least one digit in total. -/
def parseMantissa (l : List Char) : Option ℚ :=
  let p := splitAtDot l
  match p.2 with
  | none => (natOfDigits p.1).map (fun n => (n : ℚ))
  | some f =>
    if p.1.isEmpty ∧ f.isEmpty then none
    else if p.1.all Char.isDigit ∧ f.all Char.isDigit then
      some (((natOfDigits p.1).getD 0 : ℚ)
        + ((natOfDigits f).getD 0 : ℚ) / (10 : ℚ) ^ f.length)
    else none

/-- Exponent part after `e`/`E`: an optionally signed digit string. -/
def parseExpPart (l : List Char) : Option ℤ :=
  match l with
  | '-' :: rest => (natOfDigits rest).map (fun n => -(n : ℤ))
  | '+' :: rest => (natOfDigits rest).map (fun n => (n : ℤ))
  | _ => (natOfDigits l).map (fun n => (n : ℤ))

/-- Negate when the parsed sign was `'-'`. -/
def applySign (neg : Bool) (q : ℚ) : ℚ := if neg then -q else q

/-- The full model of `pd.to_numeric(errors='coerce')` on one string:
after stripping whitespace and an optional sign, accept the spellings of
`NaN` and infinity (case-insensitively), or a decimal with an optional
scientific-notation exponent.  `none` models a coercion failure (which
`errors='coerce'` turns into `NaN`). -/
def parsePdNum (s : String) : Option PdNum :=
  let l := (strStrip s).data
  let signed : Bool × List Char :=
    match l with
    | '-' :: rest => (true, rest)
    | '+' :: rest => (false, rest)
    | _ => (false, l)
  let lower := signed.2.map Char.toLower
  if lower = "nan".data then some PdNum.nan
  else if lower = "inf".data ∨ lower = "infinity".data then
    some (if signed.1 then PdNum.negInf else PdNum.posInf)
  else
    match splitExp signed.2 with
    | (mant, none) =>
      (parseMantissa mant).map (fun m => PdNum.finite (applySign signed.1 m))
    | (mant, some e) =>
      match parseMantissa mant, parseExpPart e with
      | some m, some ex =>
        some (PdNum.finite (applySign signed.1 (m * (10 : ℚ) ^ ex)))
      | _, _ => none

/-! ### The cleaning steps of `process_data` -/

/-- `astype(str)` on a cell: a pandas `NaN` prints as the string `"nan"`. -/
def astypeStr (c : Cell) : String := c.getD "nan"

/-- Category normalization (line 63 of `projects.py`):
`astype(str).str.replace(':', '', regex=False).str.strip().str.title()`. -/
def normType (c : Cell) : String :=
  strTitle (strStrip (removeAll ':' (astypeStr c)))

/-- Numeric cleaning (lines 68-70): `astype(str)`, drop thousands
separators, coerce to a number, default unparsable cells to 0. -/
def cleanNum (c : Cell) : ℚ :=
  (parseNum (removeAll ',' (astypeStr c))).getD 0

/-- Numeric cleaning over the full pandas value domain (lines 68-70):
`astype(str)`, drop thousands separators, coerce with
`pd.to_numeric(errors='coerce')` (a failure becomes `NaN`), then
`fillna(0)` replaces `NaN` by 0.  Infinities parse successfully and are
not `NaN`, so they survive the `fillna`. -/
def cleanNumPd (c : Cell) : PdNum :=
  match parsePdNum (removeAll ',' (astypeStr c)) with
  | none => PdNum.finite 0
  | some PdNum.nan => PdNum.finite 0
  | some v => v

/-- The metadata filter of line 66:
`.str.contains("Last Edited", case=False, na=False)`. -/
def isLastEdited (s : String) : Bool :=
  containsInsensitive "Last Edited" s

/-- pandas `clip(lo, hi)` on one value. -/
def clip (lo hi x : ℚ) : ℚ := min hi (max lo x)

/-! ### Column access and grouping -/

/-- Index of the first column with the given (stripped) name. -/
def colIdx (cols : List String) (c : String) : Option Nat :=
  cols.findIdx? (fun x => x == c)

/-- Cell of a row under a column name; `none` when the column is absent
(in `process_data` presence is guaranteed by the required-columns check). -/
def getCell (cols : List String) (row : List Cell) (c : String) : Cell :=
  match colIdx cols c with
  | some i => row.getD i none
  | none => none

/-- Lexicographic comparison of character lists (code-point order, as
Python compares the group keys). -/
def charListLe : List Char → List Char → Bool
  | [], _ => true
  | _ :: _, [] => false
  | a :: as, b :: bs => if a = b then charListLe as bs else decide (a < b)

/-- Lexicographic `≤` on strings, code-point order. -/
def strLe (a b : String) : Bool := charListLe a.data b.data

/-- Insert into a lexicographically sorted list of strings. -/
def insertSorted (s : String) : List String → List String
  | [] => [s]
  | t :: ts => if strLe s t then s :: t :: ts else t :: insertSorted s ts

/-- Sort strings ascending (models the default `sort=True` of
`df.groupby`, which orders group keys lexicographically). -/
def sortStrings : List String → List String
  | [] => []
  | s :: ss => insertSorted s (sortStrings ss)

/-- The required columns of `process_data`. -/
def requiredCols : List String := ["Type", "Design", "As Built"]

/-- The missing-columns list computed at lines 57-58 (against stripped
column names). -/
def missingCols (df : Frame) : List String :=
  requiredCols.filter (fun c => ¬ (df.cols.map strStrip).contains c)

/-- A cleaned record: normalized category, design quantity, built
quantity. -/
structure Record where
  type : String
  design : ℚ
  asBuilt : ℚ
deriving Repr, DecidableEq

/-- The cleaned record sequence of `process_data` (lines 53-70): strip
column names, drop rows with missing `Type`, normalize the category,
drop `Last Edited` metadata rows, and coerce the numeric columns. -/
def cleanRecords (df : Frame) : List Record :=
  let cols := df.cols.map strStrip
  let kept := df.rows.filter (fun r => getCell cols r "Type" ≠ none)
  let recs := kept.map (fun r =>
    Record.mk (normType (getCell cols r "Type"))
      (cleanNum (getCell cols r "Design"))
      (cleanNum (getCell cols r "As Built")))
  recs.filter (fun rec => ¬ isLastEdited rec.type)

/-- The row of the KPI table for one group key: sum design and built over
the key's records (lines 72-75), derive the clamped completion
percentage (lines 77-80) and the unclamped remaining quantity (line 81). -/
def summarize (recs : List Record) (k : String) : KPISummary :=
  let group := recs.filter (fun rec => rec.type = k)
  let d := (group.map Record.design).sum
  let b := (group.map Record.asBuilt).sum
  KPISummary.mk k d b (clip 0 100 (if d > 0 then b / d * 100 else 0)) (d - b)

/-- Aggregation (lines 72-81): group records by category (keys sorted, as
`groupby` sorts by default) and summarize each group. -/
def aggregate (recs : List Record) : List KPISummary :=
  (sortStrings ((recs.map Record.type).dedup)).map (summarize recs)

/-- `process_data` (lines 51-83): check the required columns, returning
the missing names as a recoverable error (the code warns with this list
and returns `None`), otherwise clean and aggregate. -/
def processData (df : Frame) : Except (List String) (List KPISummary) :=
  if missingCols df ≠ [] then .error (missingCols df)
  else .ok (aggregate (cleanRecords df))

/-! ### Header resolution (module level, lines 108-124) -/

/-- Does a raw row carry the header marker, i.e. is its first cell the
string `"Type"` (`raw_dataframe[raw_dataframe[0] == 'Type']`)? -/
def isMarkerRow (r : List Cell) : Bool :=
  r.getD 0 none == some "Type"

/-- Index of the first marker row (`.index[0]` of the filtered frame). -/
def findHeaderIdx : List (List Cell) → Option Nat
  | [] => none
  | r :: rs =>
    if isMarkerRow r then some 0
    else (findHeaderIdx rs).map (· + 1)

/-- Header resolution (lines 110-118): locate the marker row, use its
cells as column names with `NaN` replaced by `'Unnamed Column'`
(`fillna`), and keep exactly the rows after it.  `none` models the
caught `IndexError` path that reports the header as not found. -/
def resolveHeader (raw : RawFrame) : Option Frame :=
  match findHeaderIdx raw.rows with
  | none => none
  | some i =>
    some (Frame.mk
      ((raw.rows.getD i []).map (fun c => c.getD "Unnamed Column"))
      (raw.rows.drop (i + 1)))

/-- Positions of the first occurrence of each column name, in order
(the columns kept by `~dataframe.columns.duplicated()`). -/
def firstIdxs (cols : List String) : List Nat :=
  (List.range cols.length).filter
    (fun i => ¬ (cols.take i).contains (cols.getD i ""))

/-- Drop duplicated columns, keeping the first occurrence (line 120). -/
def dropDupCols (f : Frame) : Frame :=
  let idxs := firstIdxs f.cols
  Frame.mk (idxs.map (fun i => f.cols.getD i ""))
    (f.rows.map (fun r => idxs.map (fun i => r.getD i none)))

/-- The module-level pipeline: resolve the header, drop duplicated
columns, then run `process_data`; `none` when the header was not found
(the code sets `dataframe = None` and skips KPI computation). -/
def runPipeline (raw : RawFrame) :
    Option (Except (List String) (List KPISummary)) :=
  match resolveHeader raw with
  | none => none
  | some f => some (processData (dropDupCols f))

/-! ### Overall completion (lines 144-153) and display rounding -/

/-- Totals and the overall completion over the summaries whose category
is among the selected types (lines 144-147); the overall percentage is
`built / design * 100` when total design is positive, else 0 - with no
clamping. -/
def overallCompletion (kpi : List KPISummary) (selected : List String) : ℚ :=
  let filtered := kpi.filter (fun s => selected.contains s.type)
  let td := (filtered.map KPISummary.design).sum
  let tb := (filtered.map KPISummary.asBuilt).sum
  if td > 0 then tb / td * 100 else 0

/-- Round to two decimal places (the `:. 2f` display format; exact ties
do not arise for the values checked here). -/
def round2 (q : ℚ) : ℚ := (⌊q * 100 + 1 / 2⌋ : ℚ) / 100

/-! ### Spec-worded normalization (for refinement comparison only) -/

/-- Category normalization as the spec words it: convert to string,
strip one trailing colon, trim whitespace, title-case.  This definition
follows the spec's words, to be compared with `normType`, which follows
the code (the code removes every colon, not only a trailing one). -/
def normTypeSpec (c : Cell) : String :=
  let s := astypeStr c
  let s' := if s.data.getLast? = some ':' then String.mk s.data.dropLast else s
  strTitle (strStrip s')

/-! ### The call boundary of `process_data` -/

/-- `df.copy()` (line 53): pandas copies the frame by value, so the
in-place operations inside `process_data` touch only the copy. -/
def frameCopy (df : Frame) : Frame := df

/-- A call to `process_data` observed from the caller: the result
together with the caller's frame after the call (unchanged, because the
body operates on `df.copy()`). -/
def processDataCall (df : Frame) :
    Except (List String) (List KPISummary) × Frame :=
  (processData (frameCopy df), df)

/-! ### Concrete instances used by the claims -/

/-- The standard header of the dashboard sheets. -/
def stdCols : List String := ["Type", "Design", "As Built"]

/-- The concrete scenario of the spec:
rows `("Road","100","40"), ("road:","50","10"), ("Bridge","0","5")`. -/
def frameScenario : Frame := ⟨stdCols,
  [[some "Road", some "100", some "40"],
   [some "road:", some "50", some "10"],
   [some "Bridge", some "0", some "5"]]⟩

/-- Three spellings of one category: `"Road"`, `" road "`, `"ROAD:"`. -/
def frameMerge : Frame := ⟨stdCols,
  [[some "Road", some "1", some "2"],
   [some " road ", some "3", some "4"],
   [some "ROAD:", some "5", some "6"]]⟩

/-- A frame with the `Design` column missing. -/
def frameMissing : Frame := ⟨["Type", "As Built"], [[some "Road", some "1"]]⟩

/-- A frame whose single row has a category that normalizes to the
empty string (`":"` loses its colon, leaving nothing). -/
def frameEmptyCat : Frame := ⟨stdCols, [[some ":", some "1", some "2"]]⟩

/-- A frame over-built in total: design 10, built 20. -/
def frameOver : Frame := ⟨stdCols, [[some "Road", some "10", some "20"]]⟩

/-- A frame whose category contains an interior colon. -/
def frameColon : Frame := ⟨stdCols, [[some "a:b", some "1", some "2"]]⟩

/-- A raw export whose header row sits at index 1, below a metadata row. -/
def rawHeaderAt1 : RawFrame :=
  ⟨[[some "meta", none, none],
    [some "Type", some "Design", none],
    [some "Road", some "1", some "2"]]⟩

/-- A raw export with no row whose first cell is `"Type"`. -/
def rawNoHeader : RawFrame := ⟨[[some "junk", some "x"], [some "rows", none]]⟩

/-- The aggregated output of `frameScenario`. -/
def kpiScenario : List KPISummary :=
  [⟨"Bridge", 0, 5, 0, -5⟩, ⟨"Road", 150, 50, 100 / 3, 100⟩]

/-! ### Helper lemmas -/

/-- The clamp of line 80 lands in `[0, 100]` whatever its argument. -/
theorem clip_bounds (x : ℚ) : 0 ≤ clip 0 100 x ∧ clip 0 100 x ≤ 100 := by
  unfold clip
  exact ⟨le_min (by norm_num) (le_max_left 0 x), min_le_left _ _⟩

/-- Inserting into a sorted list permutes consing. -/
theorem insertSorted_perm (s : String) (l : List String) :
    List.Perm (insertSorted s l) (s :: l) := by
  induction l with
  | nil => exact List.Perm.refl _
  | cons t ts ih =>
    unfold insertSorted
    split
    · exact List.Perm.refl _
    · exact (ih.cons t).trans (List.Perm.swap s t ts)

/-- The group-key sort is a permutation of its input. -/
theorem sortStrings_perm (l : List String) :
    List.Perm (sortStrings l) l := by
  induction l with
  | nil => exact List.Perm.refl _
  | cons s ss ih => exact (insertSorted_perm s (sortStrings ss)).trans (ih.cons s)

/-- Mapping the category out of a summary constructor recovers the key. -/
theorem map_type_mk (l : List String) (f : String → KPISummary)
    (hf : ∀ k, (f k).type = k) :
    (l.map f).map KPISummary.type = l := by
  induction l with
  | nil => rfl
  | cons a as ih => simp [hf, ih]

/-- Every summary produced by `aggregate` carries the clamped completion
percentage and the unclamped remaining quantity of its own totals. -/
theorem aggregate_mem_shape (recs : List Record) (s : KPISummary)
    (hs : s ∈ aggregate recs) :
    s.completion
        = clip 0 100 (if s.design > 0 then s.asBuilt / s.design * 100 else 0)
      ∧ s.leftToBuild = s.design - s.asBuilt := by
  simp only [aggregate, List.mem_map] at hs
  obtain ⟨k, _, rfl⟩ := hs
  exact ⟨rfl, rfl⟩

/-- The categories of `aggregate`'s output are the sorted deduplicated
record categories. -/
theorem aggregate_types (recs : List Record) :
    (aggregate recs).map KPISummary.type
      = sortStrings ((recs.map Record.type).dedup) := by
  simp only [aggregate]
  exact map_type_mk _ _ (fun k => rfl)

/-- Every summary's category is the category of some cleaned record. -/
theorem aggregate_mem_record (recs : List Record) (s : KPISummary)
    (hs : s ∈ aggregate recs) : ∃ rec ∈ recs, rec.type = s.type := by
  simp only [aggregate, List.mem_map] at hs
  obtain ⟨k, hk, rfl⟩ := hs
  have hk' : k ∈ (recs.map Record.type).dedup :=
    ((sortStrings_perm _).mem_iff).mp hk
  have hk'' := List.mem_dedup.mp hk'
  simp only [List.mem_map] at hk''
  obtain ⟨rec, hrec, hty⟩ := hk''
  exact ⟨rec, hrec, hty⟩

/-- Every cleaned record escapes the `Last Edited` filter and stems from
a row whose `Type` cell is present; its category is that cell normalized. -/
theorem cleanRecords_mem (df : Frame) (rec : Record)
    (h : rec ∈ cleanRecords df) :
    isLastEdited rec.type = false
    ∧ ∃ r ∈ df.rows, ∃ v,
        getCell (df.cols.map strStrip) r "Type" = some v
        ∧ rec.type = normType (some v) := by
  simp only [cleanRecords, List.mem_filter, List.mem_map,
    decide_eq_true_eq, Bool.not_eq_true] at h
  obtain ⟨⟨r, ⟨hrows, hne⟩, rfl⟩, hle⟩ := h
  obtain ⟨v, hv⟩ := Option.ne_none_iff_exists'.mp hne
  exact ⟨hle, r, hrows, v, hv, by rw [hv]⟩

/-- Evaluate `summarize` once the group filter is resolved. -/
theorem summarize_eval (recs : List Record) (k : String) (g : List Record)
    (hg : recs.filter (fun rec => rec.type = k) = g) :
    summarize recs k = KPISummary.mk k ((g.map Record.design).sum)
      ((g.map Record.asBuilt).sum)
      (clip 0 100 (if (g.map Record.design).sum > 0
        then (g.map Record.asBuilt).sum / (g.map Record.design).sum * 100
        else 0))
      ((g.map Record.design).sum - (g.map Record.asBuilt).sum) := by
  simp only [summarize, hg]

/-- Running `process_data` on the spec's concrete scenario. -/
theorem processData_scenario : processData frameScenario = .ok kpiScenario := by
  have hm : missingCols frameScenario = [] := rfl
  have hcr : cleanRecords frameScenario =
      [Record.mk "Road" 100 40, Record.mk "Road" 50 10,
       Record.mk "Bridge" 0 5] := by
    rw [show cleanRecords frameScenario =
        [Record.mk "Road" (cleanNum (some "100")) (cleanNum (some "40")),
         Record.mk "Road" (cleanNum (some "50")) (cleanNum (some "10")),
         Record.mk "Bridge" (cleanNum (some "0")) (cleanNum (some "5"))]
      from rfl]
    rw [show cleanNum (some "100") = 1 * ((100 : Nat) : ℚ) from rfl,
        show cleanNum (some "40") = 1 * ((40 : Nat) : ℚ) from rfl,
        show cleanNum (some "50") = 1 * ((50 : Nat) : ℚ) from rfl,
        show cleanNum (some "10") = 1 * ((10 : Nat) : ℚ) from rfl,
        show cleanNum (some "0") = 1 * ((0 : Nat) : ℚ) from rfl,
        show cleanNum (some "5") = 1 * ((5 : Nat) : ℚ) from rfl]
    norm_num
  unfold processData
  rw [if_neg (fun h => h hm), hcr]
  rw [show aggregate
      [Record.mk "Road" (100 : ℚ) 40, Record.mk "Road" 50 10,
       Record.mk "Bridge" 0 5]
    = (["Bridge", "Road"]).map (summarize
      [Record.mk "Road" (100 : ℚ) 40, Record.mk "Road" 50 10,
       Record.mk "Bridge" 0 5]) from rfl]
  simp only [List.map_cons, List.map_nil]
  rw [summarize_eval
        [Record.mk "Road" (100 : ℚ) 40, Record.mk "Road" 50 10,
         Record.mk "Bridge" 0 5] "Bridge" [Record.mk "Bridge" 0 5] rfl,
      summarize_eval
        [Record.mk "Road" (100 : ℚ) 40, Record.mk "Road" 50 10,
         Record.mk "Bridge" 0 5] "Road"
        [Record.mk "Road" (100 : ℚ) 40, Record.mk "Road" 50 10] rfl]
  norm_num [kpiScenario, clip, min_def, max_def]

/-- Running `process_data` on the three spellings of `Road`. -/
theorem processData_merge :
    processData frameMerge = .ok [KPISummary.mk "Road" 9 12 100 (-3)] := by
  have hm : missingCols frameMerge = [] := rfl
  have hcr : cleanRecords frameMerge =
      [Record.mk "Road" 1 2, Record.mk "Road" 3 4, Record.mk "Road" 5 6] := by
    rw [show cleanRecords frameMerge =
        [Record.mk "Road" (cleanNum (some "1")) (cleanNum (some "2")),
         Record.mk "Road" (cleanNum (some "3")) (cleanNum (some "4")),
         Record.mk "Road" (cleanNum (some "5")) (cleanNum (some "6"))]
      from rfl]
    rw [show cleanNum (some "1") = 1 * ((1 : Nat) : ℚ) from rfl,
        show cleanNum (some "2") = 1 * ((2 : Nat) : ℚ) from rfl,
        show cleanNum (some "3") = 1 * ((3 : Nat) : ℚ) from rfl,
        show cleanNum (some "4") = 1 * ((4 : Nat) : ℚ) from rfl,
        show cleanNum (some "5") = 1 * ((5 : Nat) : ℚ) from rfl,
        show cleanNum (some "6") = 1 * ((6 : Nat) : ℚ) from rfl]
    norm_num
  unfold processData
  rw [if_neg (fun h => h hm), hcr]
  rw [show aggregate
      [Record.mk "Road" (1 : ℚ) 2, Record.mk "Road" 3 4, Record.mk "Road" 5 6]
    = (["Road"]).map (summarize
      [Record.mk "Road" (1 : ℚ) 2, Record.mk "Road" 3 4,
       Record.mk "Road" 5 6]) from rfl]
  simp only [List.map_cons, List.map_nil]
  rw [summarize_eval
      [Record.mk "Road" (1 : ℚ) 2, Record.mk "Road" 3 4, Record.mk "Road" 5 6]
      "Road"
      [Record.mk "Road" (1 : ℚ) 2, Record.mk "Road" 3 4, Record.mk "Road" 5 6]
      rfl]
  norm_num [clip, min_def, max_def]

/-- Running `process_data` on the interior-colon category `"a:b"`. -/
theorem processData_colon :
    processData frameColon = .ok [KPISummary.mk "Ab" 1 2 100 (-1)] := by
  have hm : missingCols frameColon = [] := rfl
  have hcr : cleanRecords frameColon = [Record.mk "Ab" 1 2] := by
    rw [show cleanRecords frameColon =
        [Record.mk "Ab" (cleanNum (some "1")) (cleanNum (some "2"))] from rfl]
    rw [show cleanNum (some "1") = 1 * ((1 : Nat) : ℚ) from rfl,
        show cleanNum (some "2") = 1 * ((2 : Nat) : ℚ) from rfl]
    norm_num
  unfold processData
  rw [if_neg (fun h => h hm), hcr]
  rw [show aggregate [Record.mk "Ab" (1 : ℚ) 2]
    = (["Ab"]).map (summarize [Record.mk "Ab" (1 : ℚ) 2]) from rfl]
  simp only [List.map_cons, List.map_nil]
  rw [summarize_eval [Record.mk "Ab" (1 : ℚ) 2] "Ab"
      [Record.mk "Ab" (1 : ℚ) 2] rfl]
  norm_num [clip, min_def, max_def]

/-- Running `process_data` on a category that normalizes to the empty
string: the row is kept and aggregated under `""`. -/
theorem processData_emptyCat :
    processData frameEmptyCat = .ok [KPISummary.mk "" 1 2 100 (-1)] := by
  have hm : missingCols frameEmptyCat = [] := rfl
  have hcr : cleanRecords frameEmptyCat = [Record.mk "" 1 2] := by
    rw [show cleanRecords frameEmptyCat =
        [Record.mk "" (cleanNum (some "1")) (cleanNum (some "2"))] from rfl]
    rw [show cleanNum (some "1") = 1 * ((1 : Nat) : ℚ) from rfl,
        show cleanNum (some "2") = 1 * ((2 : Nat) : ℚ) from rfl]
    norm_num
  unfold processData
  rw [if_neg (fun h => h hm), hcr]
  rw [show aggregate [Record.mk "" (1 : ℚ) 2]
    = ([""]).map (summarize [Record.mk "" (1 : ℚ) 2]) from rfl]
  simp only [List.map_cons, List.map_nil]
  rw [summarize_eval [Record.mk "" (1 : ℚ) 2] ""
      [Record.mk "" (1 : ℚ) 2] rfl]
  norm_num [clip, min_def, max_def]

/-- Running `process_data` on the over-built frame (design 10, built 20):
the per-category completion is clamped to 100. -/
theorem processData_over :
    processData frameOver = .ok [KPISummary.mk "Road" 10 20 100 (-10)] := by
  have hm : missingCols frameOver = [] := rfl
  have hcr : cleanRecords frameOver = [Record.mk "Road" 10 20] := by
    rw [show cleanRecords frameOver =
        [Record.mk "Road" (cleanNum (some "10")) (cleanNum (some "20"))]
      from rfl]
    rw [show cleanNum (some "10") = 1 * ((10 : Nat) : ℚ) from rfl,
        show cleanNum (some "20") = 1 * ((20 : Nat) : ℚ) from rfl]
    norm_num
  unfold processData
  rw [if_neg (fun h => h hm), hcr]
  rw [show aggregate [Record.mk "Road" (10 : ℚ) 20]
    = (["Road"]).map (summarize [Record.mk "Road" (10 : ℚ) 20]) from rfl]
  simp only [List.map_cons, List.map_nil]
  rw [summarize_eval [Record.mk "Road" (10 : ℚ) 20] "Road"
      [Record.mk "Road" (10 : ℚ) 20] rfl]
  norm_num [clip, min_def, max_def]

/-- Aggregating the over-built record directly. -/
theorem aggregate_over :
    aggregate [Record.mk "Road" 10 20]
      = [KPISummary.mk "Road" 10 20 100 (-10)] := by
  rw [show aggregate [Record.mk "Road" (10 : ℚ) 20]
    = (["Road"]).map (summarize [Record.mk "Road" (10 : ℚ) 20]) from rfl]
  simp only [List.map_cons, List.map_nil]
  rw [summarize_eval [Record.mk "Road" (10 : ℚ) 20] "Road"
      [Record.mk "Road" (10 : ℚ) 20] rfl]
  norm_num [clip, min_def, max_def]

/-- Aggregating the zero-design record directly. -/
theorem aggregate_bridge :
    aggregate [Record.mk "Bridge" 0 5]
      = [KPISummary.mk "Bridge" 0 5 0 (-5)] := by
  rw [show aggregate [Record.mk "Bridge" (0 : ℚ) 5]
    = (["Bridge"]).map (summarize [Record.mk "Bridge" (0 : ℚ) 5]) from rfl]
  simp only [List.map_cons, List.map_nil]
  rw [summarize_eval [Record.mk "Bridge" (0 : ℚ) 5] "Bridge"
      [Record.mk "Bridge" (0 : ℚ) 5] rfl]
  norm_num [clip, min_def, max_def]

/-- The overall completion of the over-built summary is 200. -/
theorem overallCompletion_over :
    overallCompletion [KPISummary.mk "Road" 10 20 100 (-10)] ["Road"] = 200 := by
  simp only [overallCompletion]
  rw [show ([KPISummary.mk "Road" (10 : ℚ) 20 100 (-10)]).filter
      (fun s => (["Road"]).contains s.type)
    = [KPISummary.mk "Road" (10 : ℚ) 20 100 (-10)] from rfl]
  norm_num

/-- The displayed two-decimal rounding of `100/3` is `33.33`. -/
theorem round2_third : round2 (100 / 3) = 3333 / 100 := by
  unfold round2
  rw [show (⌊(100 : ℚ) / 3 * 100 + 1 / 2⌋ : ℤ) = 3333 from
    Int.floor_eq_iff.mpr (by norm_num)]
  norm_num

/-- C1: for every cleaned Record sequence, every per-category KPISummary
produced by aggregation has a completion percentage lying in `[0, 100]`,
regardless of input magnitudes, including when the summed built quantity
exceeds the summed design quantity. -/
theorem completion_in_range (recs : List Record) (s : KPISummary)
    (hs : s ∈ aggregate recs) : 0 ≤ s.completion ∧ s.completion ≤ 100 := by
  rw [(aggregate_mem_shape recs s hs).1]
  exact clip_bounds _

/-- Witness for C1: the over-built record (design 10, built 20) aggregates
to a summary whose completion, 100, lies in `[0, 100]`. -/
theorem completion_in_range_witness :
    0 ≤ (KPISummary.mk "Road" (10 : ℚ) 20 100 (-10)).completion
    ∧ (KPISummary.mk "Road" (10 : ℚ) 20 100 (-10)).completion ≤ 100 :=
  completion_in_range [Record.mk "Road" 10 20]
    (KPISummary.mk "Road" 10 20 100 (-10))
    (by rw [aggregate_over]; exact List.mem_singleton_self _)

/-- C2: a category whose summed design quantity is 0 gets completion
percentage exactly 0; the division is guarded by the `design > 0` mask,
and `process_data` is total - on any input frame it either reports the
missing columns or returns the aggregated summaries, never raising. -/
theorem zero_design_zero_completion (recs : List Record) (s : KPISummary)
    (hs : s ∈ aggregate recs) (hd : s.design = 0) :
    s.completion = 0
    ∧ ∀ df : Frame, processData df = .error (missingCols df)
        ∨ processData df = .ok (aggregate (cleanRecords df)) := by
  constructor
  · rw [(aggregate_mem_shape recs s hs).1, hd]
    norm_num [clip, min_def, max_def]
  · intro df
    unfold processData
    split
    · exact Or.inl rfl
    · exact Or.inr rfl

/-- Witness for C2: the `Bridge` group with design 0 and built 5 has
completion exactly 0. -/
theorem zero_design_zero_completion_witness :
    (KPISummary.mk "Bridge" (0 : ℚ) 5 0 (-5)).completion = 0 :=
  (zero_design_zero_completion [Record.mk "Bridge" 0 5]
    (KPISummary.mk "Bridge" 0 5 0 (-5))
    (by rw [aggregate_bridge]; exact List.mem_singleton_self _) rfl).1

/-- Counterexample to C3: the code removes every colon, not only a
trailing one.  On the category `"a:b"` the code normalizes to `"Ab"`,
while the claim's normalization (strip one trailing colon, trim,
title-case) yields `"A:B"`, and the program indeed groups the row under
`"Ab"`. -/
theorem colon_normalization_counterexample :
    normType (some "a:b") = "Ab"
    ∧ normTypeSpec (some "a:b") = "A:B"
    ∧ normType (some "a:b") ≠ normTypeSpec (some "a:b")
    ∧ processData frameColon = .ok [KPISummary.mk "Ab" 1 2 100 (-1)] :=
  ⟨rfl, rfl, by decide, processData_colon⟩

/-- C3 amended: category normalization converts the value to string,
removes every colon character (not only a trailing one), trims
whitespace and title-cases it before grouping, so `"Road"`, `" road "`
and `"ROAD:"` all aggregate into a single `"Road"` entry, and each
distinct normalized category appears exactly once in the output. -/
theorem colon_normalization_amended :
    (∀ c : Cell, normType c = strTitle (strStrip (removeAll ':' (astypeStr c))))
    ∧ (∀ df out, processData df = .ok out → (out.map KPISummary.type).Nodup)
    ∧ processData frameMerge = .ok [KPISummary.mk "Road" 9 12 100 (-3)] := by
  refine ⟨fun c => rfl, ?_, processData_merge⟩
  intro df out hok
  unfold processData at hok
  split at hok
  · exact absurd hok (by simp)
  · simp only [Except.ok.injEq] at hok
    subst hok
    rw [aggregate_types]
    exact ((sortStrings_perm _).nodup_iff).mpr (List.nodup_dedup _)

/-- Witness for C3: the merged output of the three spellings carries no
duplicate category. -/
theorem colon_normalization_witness :
    (([KPISummary.mk "Road" (9 : ℚ) 12 100 (-3)]).map KPISummary.type).Nodup :=
  colon_normalization_amended.2.1 frameMerge
    [KPISummary.mk "Road" 9 12 100 (-3)] processData_merge

/-- The index returned by the header search is the first marker row. -/
theorem findHeaderIdx_spec (rows : List (List Cell)) (i : Nat)
    (h : findHeaderIdx rows = some i) :
    isMarkerRow (rows.getD i []) = true
    ∧ ∀ j, j < i → isMarkerRow (rows.getD j []) = false := by
  induction rows generalizing i with
  | nil => simp [findHeaderIdx] at h
  | cons r rs ih =>
    simp only [findHeaderIdx] at h
    by_cases hr : isMarkerRow r = true
    · rw [if_pos hr] at h
      have h0 := Option.some.inj h
      subst h0
      refine ⟨by simpa using hr, ?_⟩
      intro j hj
      exact absurd hj (Nat.not_lt_zero j)
    · rw [if_neg hr] at h
      obtain ⟨i', hi', heq⟩ := Option.map_eq_some'.mp h
      subst heq
      obtain ⟨h1, h2⟩ := ih i' hi'
      simp only [Bool.not_eq_true] at hr
      refine ⟨by simpa using h1, ?_⟩
      intro j hj
      cases j with
      | zero => simpa using hr
      | succ j' => simpa using h2 j' (by omega)

/-- C4: header resolution scans raw rows in order and selects the first
row whose first (marker) cell equals `"Type"`: that row's cells become
the column names with blank (`NaN`) cells replaced by the placeholder
`'Unnamed Column'`, and exactly the rows after it become the data rows;
if no such row exists, the header is reported as not found and the
downstream aggregation is skipped (`none`) without crashing. -/
theorem header_resolution (raw : RawFrame) :
    (∀ i, findHeaderIdx raw.rows = some i →
        isMarkerRow (raw.rows.getD i []) = true
        ∧ (∀ j, j < i → isMarkerRow (raw.rows.getD j []) = false)
        ∧ resolveHeader raw = some (Frame.mk
            ((raw.rows.getD i []).map (fun c => c.getD "Unnamed Column"))
            (raw.rows.drop (i + 1))))
    ∧ (findHeaderIdx raw.rows = none → runPipeline raw = none) := by
  constructor
  · intro i h
    obtain ⟨h1, h2⟩ := findHeaderIdx_spec raw.rows i h
    refine ⟨h1, h2, ?_⟩
    unfold resolveHeader
    rw [h]
  · intro h
    have hres : resolveHeader raw = none := by
      unfold resolveHeader
      rw [h]
    unfold runPipeline
    rw [hres]

/-- Witness for C4: on a raw export with the marker at index 1 the header
resolves to that row, and on an export without a marker the pipeline
yields `none`. -/
theorem header_resolution_witness :
    isMarkerRow (rawHeaderAt1.rows.getD 1 []) = true
    ∧ resolveHeader rawHeaderAt1 = some (Frame.mk
        ((rawHeaderAt1.rows.getD 1 []).map (fun c => c.getD "Unnamed Column"))
        (rawHeaderAt1.rows.drop (1 + 1)))
    ∧ runPipeline rawNoHeader = none :=
  ⟨((header_resolution rawHeaderAt1).1 1 rfl).1,
   ((header_resolution rawHeaderAt1).1 1 rfl).2.2,
   (header_resolution rawNoHeader).2 rfl⟩

/-- C5: if any required column (`Type`, `Design`, `As Built`) is absent,
`process_data` returns the recoverable missing-columns condition naming
exactly the required columns that are absent, and produces no
KPISummary. -/
theorem missing_columns (df : Frame) (h : missingCols df ≠ []) :
    processData df = .error (missingCols df)
    ∧ ∀ c, c ∈ missingCols df ↔
        (c ∈ requiredCols ∧ (df.cols.map strStrip).contains c = false) := by
  constructor
  · unfold processData
    rw [if_pos h]
  · intro c
    simp [missingCols, List.mem_filter, decide_eq_true_eq, Bool.not_eq_true]

/-- Witness for C5: a frame without the `Design` column yields the
missing-columns condition naming exactly `"Design"`. -/
theorem missing_columns_witness :
    processData frameMissing = .error (missingCols frameMissing)
    ∧ missingCols frameMissing = ["Design"] :=
  ⟨(missing_columns frameMissing (by decide)).1, by decide⟩

/-- Counterexample to C6: an infinity spelling parses successfully, so it
is not `NaN` and `fillna(0)` does not touch it - the cell `"-inf"`
cleans to negative infinity, not to 0, refuting "after cleaning no
numeric field is ... negative-infinite". -/
theorem numeric_coercion_counterexample :
    cleanNumPd (some "-inf") = PdNum.negInf
    ∧ PdNum.negInf ≠ PdNum.finite 0 := by
  refine ⟨rfl, ?_⟩
  simp

/-- C6 amended: numeric cleaning converts the cell to string, removes
thousands-separator commas and attempts a numeric parse accepting
decimals, scientific notation, and infinity and `NaN` spellings; on
parse failure, emptiness, or a `NaN` result the value 0 is substituted
without raising (`"N/A"` becomes 0, `"1,234"` parses to 1234, `"1e3"`
parses to 1000), so after cleaning no numeric field is `NaN` - but an
infinity cell parses successfully and survives `fillna(0)`, so a
cleaned field can be (negative-)infinite. -/
theorem numeric_coercion_amended (s : String)
    (h : parsePdNum (removeAll ',' s) = none
         ∨ parsePdNum (removeAll ',' s) = some PdNum.nan) :
    cleanNumPd (some s) = PdNum.finite 0
    ∧ cleanNumPd (some "1,234") = PdNum.finite 1234
    ∧ parsePdNum "1e3" = some (PdNum.finite 1000)
    ∧ (∀ c : Cell, cleanNumPd c ≠ PdNum.nan) := by
  refine ⟨?_, ?_, ?_, ?_⟩
  · rcases h with h | h
    · simp [cleanNumPd, astypeStr, h]
    · simp [cleanNumPd, astypeStr, h]
  · rw [show cleanNumPd (some "1,234")
        = PdNum.finite ((1234 : Nat) : ℚ) from rfl]
    norm_num
  · rw [show parsePdNum "1e3"
        = some (PdNum.finite (((1 : Nat) : ℚ) * (10 : ℚ) ^ (((3 : Nat) : ℤ))))
      from rfl]
    norm_num
  · intro c
    cases hv : parsePdNum (removeAll ',' (astypeStr c)) with
    | none => simp [cleanNumPd, hv]
    | some v => cases v <;> simp [cleanNumPd, hv]

/-- Witness for C6: the unparsable value `"N/A"` cleans to 0 and the
comma-separated `"1,234"` cleans to 1234. -/
theorem numeric_coercion_witness :
    cleanNumPd (some "N/A") = PdNum.finite 0
    ∧ cleanNumPd (some "1,234") = PdNum.finite 1234 :=
  ⟨(numeric_coercion_amended "N/A" (Or.inl rfl)).1,
   (numeric_coercion_amended "N/A" (Or.inl rfl)).2.1⟩

/-- Counterexample to C7: a row whose category normalizes to the empty
string is NOT excluded - the row with category `":"` normalizes to `""`
and contributes a full KPISummary under the empty-string category. -/
theorem empty_category_counterexample :
    normType (some ":") = ""
    ∧ processData frameEmptyCat = .ok [KPISummary.mk "" 1 2 100 (-1)] :=
  ⟨rfl, processData_emptyCat⟩

/-- C7 amended: rows with a missing (`NaN`) category and rows whose
normalized category contains `"Last Edited"` (case-insensitively) are
excluded - every output summary's category stems from a present `Type`
cell and never matches the metadata marker; but rows whose normalized
category is empty are kept and aggregate under the empty string. -/
theorem category_exclusion_amended (df : Frame) (out : List KPISummary)
    (s : KPISummary) (hok : processData df = .ok out) (hs : s ∈ out) :
    isLastEdited s.type = false
    ∧ ∃ r ∈ df.rows, ∃ v,
        getCell (df.cols.map strStrip) r "Type" = some v
        ∧ s.type = normType (some v) := by
  unfold processData at hok
  split at hok
  · exact absurd hok (by simp)
  · simp only [Except.ok.injEq] at hok
    subst hok
    obtain ⟨rec, hrec, hty⟩ := aggregate_mem_record _ s hs
    obtain ⟨hle, r, hr, v, hv, hnv⟩ := cleanRecords_mem df rec hrec
    exact ⟨hty ▸ hle, r, hr, v, hv, hty ▸ hnv⟩

/-- Witness for C7: the summary produced from the over-built frame does
not carry the metadata marker. -/
theorem category_exclusion_witness :
    isLastEdited (KPISummary.mk "Road" (10 : ℚ) 20 100 (-10)).type = false :=
  (category_exclusion_amended frameOver
    [KPISummary.mk "Road" 10 20 100 (-10)]
    (KPISummary.mk "Road" 10 20 100 (-10)) processData_over
    (List.mem_singleton_self _)).1

/-- C8: `process_data` operates on `df.copy()`, so the caller's frame is
unchanged by a call, and running the normalize-then-aggregate pipeline
twice on the same frame yields identical KPISummary sequences. -/
theorem no_mutation_idempotent (df : Frame) :
    (processDataCall df).2 = df
    ∧ (processDataCall ((processDataCall df).2)).1 = (processDataCall df).1 :=
  ⟨rfl, rfl⟩

/-- C9: on the concrete rows `("Road","100","40"), ("road:","50","10"),
("Bridge","0","5")` under the standard header, aggregation yields
exactly the two summaries Road (design 150, built 50, completion 100/3 -
displayed as 33.33 - remaining 100) and Bridge (design 0, built 5,
completion 0, remaining -5); remaining is always design minus built,
unclamped and possibly negative. -/
theorem concrete_scenario (df : Frame) (out : List KPISummary)
    (hok : processData df = .ok out) :
    (∀ s ∈ out, s.leftToBuild = s.design - s.asBuilt)
    ∧ processData frameScenario = .ok kpiScenario
    ∧ round2 (100 / 3) = 3333 / 100 := by
  refine ⟨?_, processData_scenario, round2_third⟩
  intro s hs
  unfold processData at hok
  split at hok
  · exact absurd hok (by simp)
  · simp only [Except.ok.injEq] at hok
    subst hok
    exact (aggregate_mem_shape _ s hs).2

/-- Witness for C9: the Bridge summary's remaining quantity equals its
design minus its built quantity (0 - 5 = -5, negative, unclamped). -/
theorem concrete_scenario_witness :
    (KPISummary.mk "Bridge" (0 : ℚ) 5 0 (-5)).leftToBuild
      = (KPISummary.mk "Bridge" (0 : ℚ) 5 0 (-5)).design
        - (KPISummary.mk "Bridge" (0 : ℚ) 5 0 (-5)).asBuilt :=
  (concrete_scenario frameScenario kpiScenario processData_scenario).1
    (KPISummary.mk "Bridge" 0 5 0 (-5)) (by simp [kpiScenario])

/-- C10: the overall dashboard completion (total built over total design
of the selected categories, times 100, 0 when total design is not
positive) is not clamped: on the over-built frame it evaluates to 200,
exceeding 100, unlike the per-category completion which is clamped to
100 on the same data. -/
theorem overall_not_clamped :
    processData frameOver = .ok [KPISummary.mk "Road" 10 20 100 (-10)]
    ∧ overallCompletion [KPISummary.mk "Road" 10 20 100 (-10)] ["Road"] = 200
    ∧ 100 < overallCompletion [KPISummary.mk "Road" 10 20 100 (-10)] ["Road"]
    ∧ (KPISummary.mk "Road" (10 : ℚ) 20 100 (-10)).completion ≤ 100 := by
  refine ⟨processData_over, overallCompletion_over, ?_, by norm_num⟩
  rw [overallCompletion_over]
  norm_num
